import Mathlib

/-!
Verification of the WebHookX bounded persistent log store
(`src/logging_config.py`) against its specification.

The Python module defines a `SQLiteHandler` (a logging handler that stores
records in an SQLite table `logs` and enforces a maximum entry count by
deleting the oldest rows) and a `setup_logging` routine that attaches a
console handler, and in debug mode also the SQLite handler, to the root
logger.

The shallow embedding below models:
  * the SQLite database state visible to this module (schema flags for the
    `logs` table and its index, the rows of `logs`, and the AUTOINCREMENT
    sequence counter `seq` which mirrors SQLite's `sqlite_sequence` entry:
    with `INTEGER PRIMARY KEY AUTOINCREMENT`, a newly inserted row receives
    an id strictly larger than every id ever used, and the counter is not
    reset by `DELETE` or by reopening the file);
  * `SQLiteHandler.__init__` / `create_table` / `emit`;
  * `setup_logging` and the dispatch of records by Python's `logging`
    machinery (a record is handled when its level is at least the logger
    level, and each attached handler whose level is at most the record
    level receives it).
-/

namespace WebHookX

/-- Numeric value of `logging.NOTSET` (default `logging.Handler` level). -/
def NOTSET : Nat := 0

/-- Numeric value of `logging.DEBUG`. -/
def DEBUG : Nat := 10

/-- Numeric value of `logging.INFO`. -/
def INFO : Nat := 20

/-- Module constant `LOG_DB_PATH` (default value, no environment override). -/
def LOG_DB_PATH : String := "logs.db"

/-- Module constant `MAX_LOG_ENTRIES = 10000`. -/
def MAX_LOG_ENTRIES : Int := 10000

/-- One row of the `logs` table: `id INTEGER PRIMARY KEY AUTOINCREMENT`,
`timestamp`, `level`, `message` (all NOT NULL), nullable `module` and
`exception`. -/
structure LogRow where
  id : Nat
  timestamp : String
  level : String
  message : String
  module : Option String
  exception : Option String
deriving DecidableEq, Repr

/-- The SQLite database state behind `db_path`: whether the `logs` table and
the `idx_logs_id` index exist, the rows of `logs` in insertion order, and
the AUTOINCREMENT sequence counter (largest id ever assigned). -/
structure DB where
  hasTable : Bool
  hasIndex : Bool
  rows : List LogRow
  seq : Nat
deriving DecidableEq, Repr

/-- A freshly created, empty database file. -/
def emptyDB : DB := ⟨false, false, [], 0⟩

/-- Well-formedness maintained by the module's operations: row ids are
strictly increasing in insertion order (AUTOINCREMENT) and never exceed the
sequence counter. -/
def DB.wf (db : DB) : Prop :=
  (db.rows.map LogRow.id).Pairwise (· < ·) ∧ ∀ r ∈ db.rows, r.id ≤ db.seq

instance (db : DB) : Decidable db.wf := by
  unfold DB.wf; infer_instance

/-- The fields of a Python `logging.LogRecord` that `emit` reads:
`levelno` (numeric severity), `levelname`, the formatted message,
`module`, and `exc_text`. -/
structure PyLogRecord where
  levelno : Nat
  levelname : String
  message : String
  module : String
  exc_text : Option String
deriving DecidableEq, Repr

/-- Python `record.getMessage()`. -/
def PyLogRecord.getMessage (r : PyLogRecord) : String := r.message

/-- The state of `SQLiteHandler` after `__init__`: `self.db_path`,
`self.max_entries`, and the handler level (set later via `setLevel`). -/
structure SQLiteHandler where
  db_path : String
  max_entries : Int
  level : Nat
deriving DecidableEq, Repr

/-- The `create_table` method: `CREATE TABLE IF NOT EXISTS logs (...)` then
`CREATE INDEX IF NOT EXISTS idx_logs_id ON logs (id DESC)`.  `IF NOT EXISTS`
leaves an existing table or index (and all stored rows and the sequence
counter) untouched. -/
def create_table (db : DB) : DB :=
  let db1 := if db.hasTable then db else { db with hasTable := true }
  if db1.hasIndex then db1 else { db1 with hasIndex := true }

/-- The `SQLiteHandler.__init__` constructor: records `db_path` and
`max_entries` without any validation, then calls `self.create_table()`.
The handler level starts at `logging.NOTSET` (from `logging.Handler`).
Returns the constructed handler together with the database state after
`create_table`. -/
def SQLiteHandler.init (db_path : String) (max_entries : Int) (db : DB) :
    SQLiteHandler × DB :=
  (⟨db_path, max_entries, NOTSET⟩, create_table db)

/-- The row written by the `INSERT INTO logs ...` statement in `emit`:
AUTOINCREMENT assigns id `seq + 1` (one more than the largest id ever
used), and the bound values are the timestamp string, `record.levelname`,
`record.getMessage()`, `record.module` and `record.exc_text`. -/
def mkRow (db : DB) (ts : String) (rec : PyLogRecord) : LogRow :=
  ⟨db.seq + 1, ts, rec.levelname, rec.getMessage, some rec.module, rec.exc_text⟩

/-- Effect of the `INSERT INTO logs ...` statement on the database. -/
def insertLog (db : DB) (ts : String) (rec : PyLogRecord) : DB :=
  { db with rows := db.rows ++ [mkRow db ts rec], seq := db.seq + 1 }

/-- Result of the subquery `SELECT id FROM logs ORDER BY id ASC LIMIT excess`:
the `excess` smallest ids. -/
def oldestIds (db : DB) (excess : Nat) : List Nat :=
  (List.insertionSort (· ≤ ·) (db.rows.map LogRow.id)).take excess

/-- Effect of
`DELETE FROM logs WHERE id IN (SELECT id FROM logs ORDER BY id ASC LIMIT excess)`:
removes every row whose id is among the `excess` smallest. -/
def deleteOldest (db : DB) (excess : Nat) : DB :=
  { db with rows := db.rows.filter (fun r => decide (r.id ∉ oldestIds db excess)) }

/-- The success path of `SQLiteHandler.emit`: insert the record, read
`SELECT COUNT(*) FROM logs`, and if the count exceeds `max_entries`, delete
the oldest `count - max_entries` rows. -/
def emitSuccess (h : SQLiteHandler) (ts : String) (rec : PyLogRecord) (db : DB) : DB :=
  let db1 := insertLog db ts rec
  let count : Int := db1.rows.length
  if h.max_entries < count then
    deleteOldest db1 (count - h.max_entries).toNat
  else
    db1

/-- Possible fates of one `emit` call with respect to the SQLite layer. -/
inductive Fault
  | ok
  | connectFail
  | writeFail
deriving DecidableEq, Repr

/-- Observable outcome of one `emit` call: the database afterwards, whether
an exception propagated out of `emit` to the caller, and how many fallback
notices were printed to standard output and to standard error. -/
structure EmitResult where
  db : DB
  raised : Bool
  stdoutMsgs : Nat
  stderrMsgs : Nat
deriving DecidableEq, Repr

/-- The full `SQLiteHandler.emit` with its `try/except/finally` control flow.

  * `ok`: everything succeeds; both commits run and the connection closes.
  * `connectFail`: `sqlite3.connect` raises.  The `except Exception` clause
    catches it and executes `print(...)`, which writes to standard output
    (not standard error).  The `finally` clause then evaluates
    `conn.close()`, but `conn` was never assigned, so an
    `UnboundLocalError` is raised and propagates out of `emit`.
  * `writeFail`: a statement after the connection succeeded raises before
    any commit.  The `except` clause prints the notice to standard output,
    the `finally` clause closes the connection, and closing without a
    commit rolls the uncommitted insert back, leaving the database
    unchanged; `emit` returns normally. -/
def emit (h : SQLiteHandler) (fault : Fault) (ts : String) (rec : PyLogRecord)
    (db : DB) : EmitResult :=
  match fault with
  | .ok => ⟨emitSuccess h ts rec db, false, 0, 0⟩
  | .connectFail => ⟨db, true, 1, 0⟩
  | .writeFail => ⟨db, false, 1, 0⟩

/-- A sequence of successful `emit` calls, each given its timestamp and
record. -/
def runEmits (h : SQLiteHandler) (inputs : List (String × PyLogRecord)) (db : DB) : DB :=
  inputs.foldl (fun d i => emitSuccess h i.1 i.2 d) db

/-- Events in the life of one database file: a successful `emit`, or a
process restart, which re-runs `create_table` against the existing file
(reopening an SQLite file does not reset the AUTOINCREMENT counter). -/
inductive Event
  | emitEv (ts : String) (rec : PyLogRecord)
  | restart
deriving DecidableEq, Repr

/-- Runs a sequence of events against the database. -/
def runEvents (h : SQLiteHandler) : List Event → DB → DB
  | [], db => db
  | .emitEv ts rec :: rest, db => runEvents h rest (emitSuccess h ts rec db)
  | .restart :: rest, db => runEvents h rest (create_table db)

/-- The sequence ids assigned by the successive inserts of an event trace,
in chronological order. -/
def assignedIds (h : SQLiteHandler) : List Event → DB → List Nat
  | [], _ => []
  | .emitEv ts rec :: rest, db => (db.seq + 1) :: assignedIds h rest (emitSuccess h ts rec db)
  | .restart :: rest, db => assignedIds h rest (create_table db)

/-- A handler attached to the root logger: the console `StreamHandler`, or
the `SQLiteHandler` with its `db_path` and `max_entries`; each carries the
level set via `setLevel`. -/
inductive Handler
  | console (level : Nat)
  | sqlite (level : Nat) (db_path : String) (max_entries : Int)
deriving DecidableEq, Repr

/-- The root logger: its level and its attached handlers, in order. -/
structure LoggerState where
  level : Nat
  handlers : List Handler
deriving DecidableEq, Repr

/-- The `setup_logging(debug_mode)` routine: it first removes every existing
handler (`while logger.handlers: logger.removeHandler(...)`), sets the
logger level to DEBUG or INFO, attaches a console handler at that same
level, and in debug mode constructs a `SQLiteHandler` (which runs
`create_table`), sets its level to DEBUG and attaches it; in quiet mode the
SQLite handler is not constructed at all.  Returns the new logger state and
the database state. -/
def setup_logging (debug_mode : Bool) (logger : LoggerState) (db : DB) :
    LoggerState × DB :=
  let logger := { logger with handlers := [] }
  let logger := { logger with level := if debug_mode then DEBUG else INFO }
  let console_handler := Handler.console (if debug_mode then DEBUG else INFO)
  let logger := { logger with handlers := logger.handlers ++ [console_handler] }
  if debug_mode then
    let hd := SQLiteHandler.init LOG_DB_PATH MAX_LOG_ENTRIES db
    let sqlite_handler := { hd.1 with level := DEBUG }
    ({ logger with handlers := logger.handlers ++
        [Handler.sqlite sqlite_handler.level sqlite_handler.db_path
          sqlite_handler.max_entries] }, hd.2)
  else
    (logger, db)

/-- Observable state threaded through record dispatch: the database and the
records that reached the console sink, in order. -/
structure DispatchOut where
  db : DB
  console : List PyLogRecord
deriving DecidableEq, Repr

/-- One handler receiving a record (Python `Handler.handle`): the handler
acts only if the record level is at least the handler level.  The console
handler appends the record to the console stream; the SQLite handler runs
`emit` (success path). -/
def handleOne (ts : String) (rec : PyLogRecord) (acc : DispatchOut) (h : Handler) :
    DispatchOut :=
  match h with
  | .console lvl =>
      if lvl ≤ rec.levelno then { acc with console := acc.console ++ [rec] } else acc
  | .sqlite lvl path maxE =>
      if lvl ≤ rec.levelno then
        { acc with db := emitSuccess ⟨path, maxE, lvl⟩ ts rec acc.db }
      else acc

/-- Dispatch of one record by the logging machinery: if the record level is
at least the logger level, every attached handler handles it in order. -/
def dispatchRecord (logger : LoggerState) (ts : String) (rec : PyLogRecord)
    (o : DispatchOut) : DispatchOut :=
  if logger.level ≤ rec.levelno then logger.handlers.foldl (handleOne ts rec) o else o

/-- Dispatch of a sequence of records. -/
def dispatchAll (logger : LoggerState) (recs : List (String × PyLogRecord))
    (o : DispatchOut) : DispatchOut :=
  recs.foldl (fun acc i => dispatchRecord logger i.1 i.2 acc) o

/-- A sample record used to instantiate the universally quantified theorems
on concrete inputs. -/
def sampleRecord : PyLogRecord := ⟨DEBUG, "DEBUG", "hello", "app", none⟩

/-- A sample handler with a small capacity, for concrete instantiations. -/
def sampleHandler : SQLiteHandler := ⟨LOG_DB_PATH, 2, DEBUG⟩

/-- A sample database holding three rows with ids 1, 2, 3, for concrete
instantiations of the eviction theorems. -/
def sampleDB3 : DB :=
  ⟨true, true,
    [⟨1, "t1", "DEBUG", "m1", some "app", none⟩,
     ⟨2, "t2", "DEBUG", "m2", some "app", none⟩,
     ⟨3, "t3", "DEBUG", "m3", some "app", none⟩], 3⟩

/-! ### Basic lemmas about the embedded operations -/

lemma create_table_rows (db : DB) : (create_table db).rows = db.rows := by
  by_cases h1 : db.hasTable <;> by_cases h2 : db.hasIndex <;>
    simp [create_table, h1, h2]

lemma create_table_seq (db : DB) : (create_table db).seq = db.seq := by
  by_cases h1 : db.hasTable <;> by_cases h2 : db.hasIndex <;>
    simp [create_table, h1, h2]

lemma create_table_hasTable (db : DB) : (create_table db).hasTable = true := by
  by_cases h1 : db.hasTable <;> by_cases h2 : db.hasIndex <;>
    simp [create_table, h1, h2]

lemma create_table_hasIndex (db : DB) : (create_table db).hasIndex = true := by
  by_cases h1 : db.hasTable <;> by_cases h2 : db.hasIndex <;>
    simp [create_table, h1, h2]

lemma create_table_wf {db : DB} (hwf : db.wf) : (create_table db).wf := by
  unfold DB.wf at hwf ⊢
  rw [create_table_rows, create_table_seq]
  exact hwf

lemma insertLog_wf {db : DB} (hwf : db.wf) (ts : String) (rec : PyLogRecord) :
    (insertLog db ts rec).wf := by
  obtain ⟨hpw, hle⟩ := hwf
  constructor
  · simp only [insertLog, List.map_append, List.map_cons, List.map_nil]
    rw [List.pairwise_append]
    refine ⟨hpw, List.pairwise_singleton _ _, ?_⟩
    intro x hx y hy
    simp only [mkRow, List.mem_singleton] at hy
    subst hy
    obtain ⟨r, hr, hrid⟩ := List.mem_map.mp hx
    have := hle r hr
    omega
  · intro r hr
    simp only [insertLog, List.mem_append, List.mem_singleton] at hr
    rcases hr with hr | hr
    · have := hle r hr; simp only [insertLog]; omega
    · subst hr; simp [insertLog, mkRow]

/-- Under well-formedness the ids are already ascending, so the subquery
`ORDER BY id ASC LIMIT excess` returns the first `excess` ids in table
order. -/
lemma oldestIds_eq_take {db : DB} (hwf : db.wf) (excess : Nat) :
    oldestIds db excess = (db.rows.map LogRow.id).take excess := by
  unfold oldestIds
  congr 1
  exact List.Sorted.insertionSort_eq (hwf.1.imp le_of_lt)

/-- Filtering out the members of the first `excess` ids from a list of rows
with strictly ascending ids drops exactly the first `excess` rows. -/
lemma filter_not_mem_take_ids :
    ∀ (rows : List LogRow) (excess : Nat),
      (rows.map LogRow.id).Pairwise (· < ·) →
      rows.filter (fun r => decide (r.id ∉ (rows.map LogRow.id).take excess))
        = rows.drop excess := by
  intro rows
  induction rows with
  | nil => intro excess _; simp
  | cons r rs ih =>
    intro excess hpw
    simp only [List.map_cons, List.pairwise_cons] at hpw
    obtain ⟨hhead, htail⟩ := hpw
    cases excess with
    | zero =>
      simp
    | succ e =>
      have hrmem : r.id ∈ r.id :: (rs.map LogRow.id).take e := List.mem_cons_self _ _
      rw [List.map_cons, List.take_succ_cons, List.drop_succ_cons, List.filter_cons,
        if_neg (by simp [hrmem])]
      rw [List.filter_congr (q := fun x => decide (x.id ∉ (rs.map LogRow.id).take e))]
      · exact ih e htail
      · intro x hx
        have hne : x.id ≠ r.id := by
          have := hhead x.id (List.mem_map.mpr ⟨x, hx, rfl⟩)
          omega
        simp [List.mem_cons, hne]

lemma deleteOldest_rows {db : DB} (hwf : db.wf) (excess : Nat) :
    (deleteOldest db excess).rows = db.rows.drop excess := by
  unfold deleteOldest
  rw [oldestIds_eq_take hwf]
  exact filter_not_mem_take_ids db.rows excess hwf.1

lemma deleteOldest_seq (db : DB) (excess : Nat) :
    (deleteOldest db excess).seq = db.seq := rfl

lemma deleteOldest_wf {db : DB} (hwf : db.wf) (excess : Nat) :
    (deleteOldest db excess).wf := by
  obtain ⟨hpw, hle⟩ := hwf
  constructor
  · rw [deleteOldest_rows ⟨hpw, hle⟩, List.map_drop]
    exact hpw.sublist ((db.rows.map LogRow.id).drop_sublist excess)
  · intro r hr
    rw [deleteOldest_rows ⟨hpw, hle⟩] at hr
    exact hle r (List.drop_subset _ _ hr)

/-- Unfolding of `emitSuccess` with its local bindings reduced. -/
lemma emitSuccess_def (h : SQLiteHandler) (ts : String) (rec : PyLogRecord)
    (db : DB) :
    emitSuccess h ts rec db =
      if h.max_entries < ((insertLog db ts rec).rows.length : Int) then
        deleteOldest (insertLog db ts rec)
          (((insertLog db ts rec).rows.length : Int) - h.max_entries).toNat
      else insertLog db ts rec := rfl

lemma emitSuccess_seq (h : SQLiteHandler) (ts : String) (rec : PyLogRecord)
    (db : DB) : (emitSuccess h ts rec db).seq = db.seq + 1 := by
  rw [emitSuccess_def]
  split
  · rw [deleteOldest_seq]; rfl
  · rfl

lemma emitSuccess_wf {db : DB} (hwf : db.wf) (h : SQLiteHandler) (ts : String)
    (rec : PyLogRecord) : (emitSuccess h ts rec db).wf := by
  rw [emitSuccess_def]
  split
  · exact deleteOldest_wf (insertLog_wf hwf ts rec) _
  · exact insertLog_wf hwf ts rec

/-- Length of the table after one successful `emit`: one more row, capped at
`max_entries` (for a non-negative cap). -/
lemma emitSuccess_length {db : DB} (hwf : db.wf) {h : SQLiteHandler}
    (h0 : 0 ≤ h.max_entries) (ts : String) (rec : PyLogRecord) :
    (emitSuccess h ts rec db).rows.length
      = min (db.rows.length + 1) h.max_entries.toNat := by
  have hlen1 : (insertLog db ts rec).rows.length = db.rows.length + 1 := by
    simp [insertLog]
  rw [emitSuccess_def]
  split
  · next hover =>
    rw [deleteOldest_rows (insertLog_wf hwf ts rec), List.length_drop, hlen1]
    rw [hlen1] at hover
    omega
  · next hnot =>
    rw [hlen1]
    rw [hlen1] at hnot
    omega

lemma runEmits_cons (h : SQLiteHandler) (i : String × PyLogRecord)
    (rest : List (String × PyLogRecord)) (db : DB) :
    runEmits h (i :: rest) db = runEmits h rest (emitSuccess h i.1 i.2 db) := rfl

/-- After any non-empty sequence of successful `emit` calls against a store
with positive capacity, the stored count is at most `max_entries`. -/
lemma runEmits_length_le {h : SQLiteHandler} (hpos : 1 ≤ h.max_entries) :
    ∀ (inputs : List (String × PyLogRecord)) (db : DB), db.wf → inputs ≠ [] →
      ((runEmits h inputs db).rows.length : Int) ≤ h.max_entries := by
  intro inputs
  induction inputs with
  | nil => intro db _ hne; exact absurd rfl hne
  | cons i rest ih =>
    intro db hwf _
    rw [runEmits_cons]
    by_cases hr : rest = []
    · subst hr
      show ((emitSuccess h i.1 i.2 db).rows.length : Int) ≤ h.max_entries
      rw [emitSuccess_length hwf (by omega) i.1 i.2]
      omega
    · exact ih _ (emitSuccess_wf hwf _ _ _) hr

/-- Starting at or below capacity, the stored count after a sequence of
successful `emit` calls is the number of calls plus the initial count,
capped at `max_entries`. -/
lemma runEmits_length {h : SQLiteHandler} (h0 : 0 ≤ h.max_entries) :
    ∀ (inputs : List (String × PyLogRecord)) (db : DB), db.wf →
      db.rows.length ≤ h.max_entries.toNat →
      (runEmits h inputs db).rows.length
        = min (db.rows.length + inputs.length) h.max_entries.toNat := by
  intro inputs
  induction inputs with
  | nil =>
    intro db _ hle
    show db.rows.length = _
    simp only [List.length_nil]
    omega
  | cons i rest ih =>
    intro db hwf hle
    rw [runEmits_cons,
      ih _ (emitSuccess_wf hwf _ _ _) (by rw [emitSuccess_length hwf h0]; omega),
      emitSuccess_length hwf h0, List.length_cons]
    omega

lemma wf_of_rows_nil {db : DB} (h : db.rows = []) : db.wf := by
  unfold DB.wf
  rw [h]
  simp

/-- In quiet mode `setup_logging` leaves exactly one console handler at
INFO level. -/
lemma setup_quiet_fst (st : LoggerState) (db : DB) :
    (setup_logging false st db).1 = ⟨INFO, [Handler.console INFO]⟩ := rfl

/-- In debug mode `setup_logging` leaves a console handler and the SQLite
handler, both at DEBUG level. -/
lemma setup_verbose_fst (st : LoggerState) (db : DB) :
    (setup_logging true st db).1
      = ⟨DEBUG, [Handler.console DEBUG,
          Handler.sqlite DEBUG LOG_DB_PATH MAX_LOG_ENTRIES]⟩ := rfl

lemma setup_verbose_snd (st : LoggerState) (db : DB) :
    (setup_logging true st db).2 = create_table db := rfl

/-- With only the console handler attached, dispatch never touches the
database. -/
lemma dispatchAll_db_quiet :
    ∀ (recs : List (String × PyLogRecord)) (o : DispatchOut),
      (dispatchAll ⟨INFO, [Handler.console INFO]⟩ recs o).db = o.db := by
  intro recs
  induction recs with
  | nil => intro o; rfl
  | cons i rest ih =>
    intro o
    show (dispatchAll _ rest (dispatchRecord _ i.1 i.2 o)).db = o.db
    rw [ih]
    unfold dispatchRecord
    split
    · show (handleOne i.1 i.2 o (Handler.console INFO)).db = o.db
      simp only [handleOne]
      split <;> rfl
    · rfl

/-- With the verbose configuration, dispatching records that pass the DEBUG
threshold sends each one to the console and performs one `emit` per record
against the store. -/
lemma dispatchAll_verbose_run :
    ∀ (recs : List (String × PyLogRecord)) (db : DB) (out : List PyLogRecord),
      (∀ x ∈ recs, DEBUG ≤ x.2.levelno) →
      dispatchAll ⟨DEBUG, [Handler.console DEBUG,
          Handler.sqlite DEBUG LOG_DB_PATH MAX_LOG_ENTRIES]⟩ recs ⟨db, out⟩
        = ⟨runEmits ⟨LOG_DB_PATH, MAX_LOG_ENTRIES, DEBUG⟩ recs db,
            out ++ recs.map (fun x => x.2)⟩ := by
  intro recs
  induction recs with
  | nil => intro db out _; simp [dispatchAll, runEmits]
  | cons i rest ih =>
    intro db out hlev
    have hi : DEBUG ≤ i.2.levelno := hlev i (List.mem_cons_self _ _)
    show dispatchAll _ rest (dispatchRecord _ i.1 i.2 ⟨db, out⟩) = _
    have hstep : dispatchRecord ⟨DEBUG, [Handler.console DEBUG,
          Handler.sqlite DEBUG LOG_DB_PATH MAX_LOG_ENTRIES]⟩ i.1 i.2 ⟨db, out⟩
        = ⟨emitSuccess ⟨LOG_DB_PATH, MAX_LOG_ENTRIES, DEBUG⟩ i.1 i.2 db,
            out ++ [i.2]⟩ := by
      simp [dispatchRecord, handleOne, hi]
    rw [hstep, ih _ _ (fun x hx => hlev x (List.mem_cons_of_mem _ hx)),
      runEmits_cons]
    simp

/-- Every id assigned along an event trace exceeds the sequence counter at
the start of the trace: ids are never reused or reset, not by eviction and
not by a restart. -/
lemma assignedIds_gt (h : SQLiteHandler) :
    ∀ (evs : List Event) (db : DB), ∀ i ∈ assignedIds h evs db, db.seq < i := by
  intro evs
  induction evs with
  | nil => intro db i hi; simp [assignedIds] at hi
  | cons e rest ih =>
    intro db i hi
    cases e with
    | emitEv ts rec =>
      simp only [assignedIds, List.mem_cons] at hi
      rcases hi with hi | hi
      · omega
      · have := ih (emitSuccess h ts rec db) i hi
        rw [emitSuccess_seq] at this
        omega
    | restart =>
      simp only [assignedIds] at hi
      have := ih (create_table db) i hi
      rw [create_table_seq] at this
      exact this

/-- The ids assigned along an event trace are strictly increasing in
chronological order. -/
lemma assignedIds_pairwise (h : SQLiteHandler) :
    ∀ (evs : List Event) (db : DB),
      (assignedIds h evs db).Pairwise (· < ·) := by
  intro evs
  induction evs with
  | nil => intro db; simp [assignedIds]
  | cons e rest ih =>
    intro db
    cases e with
    | emitEv ts rec =>
      simp only [assignedIds]
      refine List.pairwise_cons.mpr ⟨?_, ih _⟩
      intro i hi
      have := assignedIds_gt h rest (emitSuccess h ts rec db) i hi
      rw [emitSuccess_seq] at this
      omega
    | restart =>
      simpa [assignedIds] using ih (create_table db)

/-! ### The claims -/

/-- C1: Capacity invariant.  For a store with positive `max_entries`, after
any single successful `emit`, and after each call of any non-empty sequence
of successful `emit` calls, the number of retained rows is at most
`max_entries` — the bound already holds after the very call that inserts
the record, with no deferred pass.  (Every suffix point of a sequence is
itself the end of a non-empty sequence, so the second conjunct covers every
intermediate state.) -/
theorem capacity_invariant (h : SQLiteHandler) (db : DB) (ts : String)
    (rec : PyLogRecord) (inputs : List (String × PyLogRecord))
    (hwf : db.wf) (hpos : 1 ≤ h.max_entries) :
    ((emitSuccess h ts rec db).rows.length : Int) ≤ h.max_entries ∧
    (inputs ≠ [] → ((runEmits h inputs db).rows.length : Int) ≤ h.max_entries) := by
  constructor
  · rw [emitSuccess_length hwf (by omega) ts rec]
    omega
  · intro hne
    exact runEmits_length_le hpos inputs db hwf hne

/-- Witness for C1 at a concrete input: capacity 2, one emit against the
empty store. -/
theorem capacity_invariant_witness :
    ((emitSuccess sampleHandler "t" sampleRecord emptyDB).rows.length : Int)
        ≤ sampleHandler.max_entries ∧
    (([("t", sampleRecord)] : List (String × PyLogRecord)) ≠ [] →
      ((runEmits sampleHandler [("t", sampleRecord)] emptyDB).rows.length : Int)
        ≤ sampleHandler.max_entries) :=
  capacity_invariant sampleHandler emptyDB "t" sampleRecord [("t", sampleRecord)]
    (by decide) (by decide)

/-- C2: FIFO eviction.  When the post-insert count exceeds `max_entries`,
`emit` removes exactly `count - max_entries` rows, the ones with the lowest
ids: the surviving table is the old rows with the first `excess` dropped
plus the newly inserted row (so the new record survives, the count is
exactly `max_entries`, and more than one row can go in a single call), and
every evicted row has a strictly smaller id than every survivor. -/
theorem fifo_eviction (h : SQLiteHandler) (ts : String) (rec : PyLogRecord)
    (db : DB) (hwf : db.wf) (hpos : 1 ≤ h.max_entries)
    (hover : h.max_entries < (db.rows.length : Int) + 1) :
    (emitSuccess h ts rec db).rows
        = db.rows.drop (db.rows.length + 1 - h.max_entries.toNat)
          ++ [mkRow db ts rec] ∧
    ((emitSuccess h ts rec db).rows.length : Int) = h.max_entries ∧
    ∀ a ∈ db.rows.take (db.rows.length + 1 - h.max_entries.toNat),
      ∀ b ∈ (emitSuccess h ts rec db).rows, a.id < b.id := by
  have hlen1 : (insertLog db ts rec).rows.length = db.rows.length + 1 := by
    simp [insertLog]
  have hcond : h.max_entries < ((insertLog db ts rec).rows.length : Int) := by
    rw [hlen1]; push_cast; omega
  have hexc : (((insertLog db ts rec).rows.length : Int) - h.max_entries).toNat
      = db.rows.length + 1 - h.max_entries.toNat := by
    rw [hlen1]; omega
  have hexc_le : db.rows.length + 1 - h.max_entries.toNat ≤ db.rows.length := by
    omega
  have hrows : (emitSuccess h ts rec db).rows
      = db.rows.drop (db.rows.length + 1 - h.max_entries.toNat)
        ++ [mkRow db ts rec] := by
    rw [emitSuccess_def, if_pos hcond,
      deleteOldest_rows (insertLog_wf hwf ts rec), hexc]
    show (db.rows ++ [mkRow db ts rec]).drop _ = _
    rw [List.drop_append_of_le_length hexc_le]
  refine ⟨hrows, ?_, ?_⟩
  · rw [hrows]
    simp only [List.length_append, List.length_drop, List.length_singleton]
    omega
  · intro a ha b hb
    rw [hrows] at hb
    rcases List.mem_append.mp hb with hb | hb
    · have hpw : db.rows.Pairwise (fun x y => x.id < y.id) :=
        List.pairwise_map.mp hwf.1
      have hsplit : db.rows.Pairwise (fun x y => x.id < y.id) := hpw
      rw [← List.take_append_drop (db.rows.length + 1 - h.max_entries.toNat)
        db.rows] at hsplit
      exact (List.pairwise_append.mp hsplit).2.2 a ha b hb
    · rw [List.mem_singleton.mp hb]
      have : a.id ≤ db.seq := hwf.2 a (List.take_subset _ _ ha)
      simp only [mkRow]
      omega

/-- Witness for C2 at a concrete input: capacity 2, a store holding ids
1, 2, 3, one more emit; the two oldest rows go, ids 3 and 4 survive. -/
theorem fifo_eviction_witness :
    (emitSuccess sampleHandler "t" sampleRecord sampleDB3).rows
        = sampleDB3.rows.drop
            (sampleDB3.rows.length + 1 - sampleHandler.max_entries.toNat)
          ++ [mkRow sampleDB3 "t" sampleRecord] ∧
    ((emitSuccess sampleHandler "t" sampleRecord sampleDB3).rows.length : Int)
        = sampleHandler.max_entries ∧
    ∀ a ∈ sampleDB3.rows.take
        (sampleDB3.rows.length + 1 - sampleHandler.max_entries.toNat),
      ∀ b ∈ (emitSuccess sampleHandler "t" sampleRecord sampleDB3).rows,
        a.id < b.id :=
  fifo_eviction sampleHandler "t" sampleRecord sampleDB3
    (by decide) (by decide) (by decide)

/-- C3: Monotonic ordering.  Along any trace of successful emits and
restarts, the assigned ids are pairwise strictly increasing in
chronological order (so a record inserted earlier always has a strictly
smaller id, and ids are unique), and every assigned id strictly exceeds the
persisted AUTOINCREMENT counter at the start of the trace — ids are never
reset or reused, across restarts against an existing table and after
evictions have removed low ids. -/
theorem monotonic_sequence_ids (h : SQLiteHandler) (evs : List Event) (db : DB) :
    (assignedIds h evs db).Pairwise (· < ·) ∧
    ∀ i ∈ assignedIds h evs db, db.seq < i :=
  ⟨assignedIds_pairwise h evs db, assignedIds_gt h evs db⟩

/-- C4: Routing correctness.  After `setup_logging false` (quiet mode) the
store sink is not attached, so dispatching any records of any severity
leaves the database exactly as it was.  After `setup_logging true` (verbose
mode) every record at or above DEBUG (the lowest severity) reaches both the
console sink and the store, so starting from a fresh store the count after
`k` records is `min k MAX_LOG_ENTRIES`. -/
theorem routing_correctness (stq stv : LoggerState) (dbq dbv : DB)
    (out : List PyLogRecord) (recs : List (String × PyLogRecord))
    (hfresh : dbv.rows = []) (hlev : ∀ x ∈ recs, DEBUG ≤ x.2.levelno) :
    (∀ (rs : List (String × PyLogRecord)) (o : DispatchOut),
        (dispatchAll (setup_logging false stq dbq).1 rs o).db = o.db) ∧
    (dispatchAll (setup_logging true stv dbv).1 recs
        ⟨(setup_logging true stv dbv).2, out⟩).db.rows.length
      = min recs.length MAX_LOG_ENTRIES.toNat ∧
    (dispatchAll (setup_logging true stv dbv).1 recs
        ⟨(setup_logging true stv dbv).2, out⟩).console
      = out ++ recs.map (fun x => x.2) := by
  have hfresh' : (create_table dbv).rows = [] := by
    rw [create_table_rows]; exact hfresh
  have hrun := dispatchAll_verbose_run recs (create_table dbv) out hlev
  refine ⟨?_, ?_, ?_⟩
  · intro rs o
    rw [setup_quiet_fst]
    exact dispatchAll_db_quiet rs o
  · rw [setup_verbose_fst, setup_verbose_snd, hrun]
    show (runEmits ⟨LOG_DB_PATH, MAX_LOG_ENTRIES, DEBUG⟩ recs
      (create_table dbv)).rows.length = _
    rw [runEmits_length (by decide) recs (create_table dbv)
      (wf_of_rows_nil hfresh') (by rw [hfresh']; simp), hfresh']
    simp
  · rw [setup_verbose_fst, setup_verbose_snd, hrun]

/-- Witness for C4 at a concrete input: one DEBUG record dispatched after
verbose setup against the empty database. -/
theorem routing_correctness_witness :
    (∀ (rs : List (String × PyLogRecord)) (o : DispatchOut),
        (dispatchAll (setup_logging false ⟨INFO, []⟩ emptyDB).1 rs o).db = o.db) ∧
    (dispatchAll (setup_logging true ⟨INFO, []⟩ emptyDB).1 [("t", sampleRecord)]
        ⟨(setup_logging true ⟨INFO, []⟩ emptyDB).2, []⟩).db.rows.length
      = min ([("t", sampleRecord)] : List (String × PyLogRecord)).length
          MAX_LOG_ENTRIES.toNat ∧
    (dispatchAll (setup_logging true ⟨INFO, []⟩ emptyDB).1 [("t", sampleRecord)]
        ⟨(setup_logging true ⟨INFO, []⟩ emptyDB).2, []⟩).console
      = [] ++ ([("t", sampleRecord)] : List (String × PyLogRecord)).map
          (fun x => x.2) :=
  routing_correctness ⟨INFO, []⟩ ⟨INFO, []⟩ emptyDB emptyDB [] [("t", sampleRecord)]
    (by decide) (by decide)

/-- C5: the claim that `emit` never raises back to the caller and reports
failures on standard error does not hold on the code.  If `sqlite3.connect`
itself raises, the `except` clause prints the fallback notice with
`print(...)`, which writes to standard output, and then the `finally`
clause evaluates `conn.close()` with `conn` never assigned, so an
`UnboundLocalError` propagates out of `emit` to the emitting caller.  This
theorem evaluates the embedded `emit` at that failing input: the call
raises, nothing is written to standard error, and the notice goes to
standard output.  (For a failure after a successful connection, `emit` does
return normally, but the notice still goes to standard output.) -/
theorem emit_connect_failure_raises :
    (emit sampleHandler .connectFail "t" sampleRecord emptyDB).raised = true ∧
    (emit sampleHandler .connectFail "t" sampleRecord emptyDB).stderrMsgs = 0 ∧
    (emit sampleHandler .connectFail "t" sampleRecord emptyDB).stdoutMsgs = 1 ∧
    (emit sampleHandler .writeFail "t" sampleRecord emptyDB).raised = false ∧
    (emit sampleHandler .writeFail "t" sampleRecord emptyDB).stderrMsgs = 0 :=
  ⟨rfl, rfl, rfl, rfl, rfl⟩

/-- C6: Idempotent schema creation.  Running `create_table` twice yields
exactly the state after running it once (`CREATE ... IF NOT EXISTS` is a
no-op the second time; the embedded operation is total, so no error is
possible), and `create_table` never disturbs the stored rows or the
sequence counter. -/
theorem create_table_idempotent (db : DB) :
    create_table (create_table db) = create_table db ∧
    (create_table db).rows = db.rows ∧
    (create_table db).seq = db.seq := by
  refine ⟨?_, create_table_rows db, create_table_seq db⟩
  by_cases h1 : db.hasTable <;> by_cases h2 : db.hasIndex <;>
    simp [create_table, h1, h2]

/-- C7 counterexample: the claim says construction with a non-positive
`max_entries` is rejected with an error; in the code `__init__` performs no
validation at all, so construction with `max_entries = 0` (or `-1`)
succeeds, stores the non-positive cap, and even completes `create_table`
normally. -/
theorem init_no_validation_counterexample :
    (SQLiteHandler.init "logs.db" 0 emptyDB).1.max_entries = 0 ∧
    (SQLiteHandler.init "logs.db" (-1) emptyDB).1.max_entries = -1 ∧
    (SQLiteHandler.init "logs.db" 0 emptyDB).2.hasTable = true :=
  ⟨rfl, rfl, rfl⟩

/-- C7 amended: store initialization performs no validation of
`max_entries`: construction succeeds for every value, including
non-positive ones, and simply records it.  The capacity cap is not thereby
silently disabled for integer values: with `max_entries ≤ 0` every
successful `emit` evicts everything, leaving the store empty. -/
theorem init_accepts_any_max_entries (p : String) (m : Int) (db : DB)
    (ts : String) (rec : PyLogRecord) (hm : m ≤ 0) (hwf : db.wf) :
    (SQLiteHandler.init p m db).1 = ⟨p, m, NOTSET⟩ ∧
    (emitSuccess (SQLiteHandler.init p m db).1 ts rec db).rows = [] := by
  refine ⟨rfl, ?_⟩
  have hlen1 : (insertLog db ts rec).rows.length = db.rows.length + 1 := by
    simp [insertLog]
  have hcond : ((SQLiteHandler.init p m db).1).max_entries
      < ((insertLog db ts rec).rows.length : Int) := by
    show m < _
    rw [hlen1]; push_cast; omega
  rw [emitSuccess_def, if_pos hcond,
    deleteOldest_rows (insertLog_wf hwf ts rec)]
  apply List.drop_eq_nil_of_le
  show _ ≤ ((((insertLog db ts rec).rows.length : Nat) : Int)
    - ((SQLiteHandler.init p m db).1).max_entries).toNat
  have hmax : ((SQLiteHandler.init p m db).1).max_entries = m := rfl
  rw [hmax, hlen1]
  omega

/-- Witness for C7's amended statement: `max_entries = 0` is accepted and
one emit against the empty store leaves it empty. -/
theorem init_accepts_any_max_entries_witness :
    (SQLiteHandler.init "logs.db" 0 emptyDB).1 = ⟨"logs.db", 0, NOTSET⟩ ∧
    (emitSuccess (SQLiteHandler.init "logs.db" 0 emptyDB).1 "t" sampleRecord
      emptyDB).rows = [] :=
  init_accepts_any_max_entries "logs.db" 0 emptyDB "t" sampleRecord
    (by decide) (by decide)

/-- C8: Idempotent routing reset.  The logger configuration produced by
`setup_logging` depends only on the mode flag (the previous handler list is
fully discarded first), and running `setup_logging` a second time with the
same flag reproduces exactly the configuration of the first run — no
layering, no duplicate sinks. -/
theorem setup_logging_idempotent_reset (f : Bool) (st st' : LoggerState)
    (db db' : DB) :
    (setup_logging f st db).1 = (setup_logging f st' db').1 ∧
    (setup_logging f (setup_logging f st db).1 db').1
      = (setup_logging f st db).1 := by
  cases f <;> exact ⟨rfl, rfl⟩

/-- C9: Non-evicting append is add-only.  When the post-insert count does
not exceed `max_entries`, `emit` takes the no-delete branch: the new table
is the old rows, each unchanged in place and in all fields, plus exactly
one new row at the end; the schema flags are untouched and the sequence
counter advances by one. -/
theorem nonevicting_append_frame (h : SQLiteHandler) (ts : String)
    (rec : PyLogRecord) (db : DB)
    (hroom : (db.rows.length : Int) + 1 ≤ h.max_entries) :
    (emitSuccess h ts rec db).rows = db.rows ++ [mkRow db ts rec] ∧
    (emitSuccess h ts rec db).seq = db.seq + 1 ∧
    (emitSuccess h ts rec db).hasTable = db.hasTable ∧
    (emitSuccess h ts rec db).hasIndex = db.hasIndex := by
  have hlen1 : (insertLog db ts rec).rows.length = db.rows.length + 1 := by
    simp [insertLog]
  have hnot : ¬ h.max_entries < ((insertLog db ts rec).rows.length : Int) := by
    rw [hlen1]; push_cast; omega
  rw [emitSuccess_def, if_neg hnot]
  exact ⟨rfl, rfl, rfl, rfl⟩

/-- Witness for C9: capacity 2, one emit against the empty store appends
one row and deletes nothing. -/
theorem nonevicting_append_frame_witness :
    (emitSuccess sampleHandler "t" sampleRecord emptyDB).rows
        = emptyDB.rows ++ [mkRow emptyDB "t" sampleRecord] ∧
    (emitSuccess sampleHandler "t" sampleRecord emptyDB).seq = emptyDB.seq + 1 ∧
    (emitSuccess sampleHandler "t" sampleRecord emptyDB).hasTable
        = emptyDB.hasTable ∧
    (emitSuccess sampleHandler "t" sampleRecord emptyDB).hasIndex
        = emptyDB.hasIndex :=
  nonevicting_append_frame sampleHandler "t" sampleRecord emptyDB (by decide)

/-- C10: Eager schema creation at construction.  `SQLiteHandler.__init__`
runs `create_table` before returning, so directly after construction — in
particular right after verbose-mode `setup_logging`, before any record is
emitted — the logs table and its index exist. -/
theorem eager_schema_at_init (p : String) (m : Int) (db : DB)
    (st : LoggerState) :
    (SQLiteHandler.init p m db).2 = create_table db ∧
    (SQLiteHandler.init p m db).2.hasTable = true ∧
    (SQLiteHandler.init p m db).2.hasIndex = true ∧
    (setup_logging true st db).2.hasTable = true ∧
    (setup_logging true st db).2.hasIndex = true := by
  refine ⟨rfl, create_table_hasTable db, create_table_hasIndex db, ?_, ?_⟩
  · rw [setup_verbose_snd]
    exact create_table_hasTable db
  · rw [setup_verbose_snd]
    exact create_table_hasIndex db

end WebHookX
